import Mathlib

/-!
clog: a levelled, colourised console logger

A shallow embedding of `clog.go` and a verification of its specification.

* Go strings are Lean `String`s, the Go `int` holding the flags is an `Int`
  (it is only stored, compared and bit-tested), `Level` (a `uint8`) is `Fin 256`.
  A `log.Logger` keeps its flags as an `int32`: `log.int32` is the conversion.
* An `io.Writer` is a handle (`Writer`); the contents of all sinks are a
  `Sinks`, recording for each handle the buffers passed to `Write`, in order.
* A `*log.Logger` is owned by exactly one `Logger` and is embedded by value.
* The package variable `loggers` is the field `State.loggers`; a `*Logger` is
  the position of the logger in that list (every logger made by `New` is
  registered there, and nothing is ever removed).
* `fmt` and `log` are the Go standard library. Their parts that `clog.go` calls
  are modelled in the namespaces `fmt` and `log` below.
-/

namespace Clog

/-! ## Operands and sinks -/

/-- An operand of a variadic `v ...any` call: an `int` or a `string`. -/
inductive Value where
  | int (n : Int)
  | str (s : String)
  deriving DecidableEq, Repr

/-- The handle of an `io.Writer`. -/
abbrev Writer := Nat

/-- For every writer, the buffers it has received through `Write`, oldest first. -/
abbrev Sinks := Writer → List String

/-- The call `w.Write(buf)` on an in-memory sink: the buffer is appended. -/
def Sinks.Write (sinks : Sinks) (w : Writer) (buf : String) : Sinks :=
  fun w' => if w' = w then sinks w' ++ [buf] else sinks w'

/-! ## The fragment of `fmt` used by `clog.go`

Formats are read left to right. A directive is `%`, then `-` flags, then a
decimal width, then one of the verbs `c`, `d`, `s`, `v`; `%%` is a literal
percent sign. All formats of `clog.go` (`"%c[%d;%%dm%%-8s%c[0m"`,
`"%c[%d;%dm%%s%c[0m"`, `"%-8s"` and the formats they produce) lie in this
fragment. Outside the model, and not rendered as Go renders them: the flags
`0`, `+`, `#` and space, a `-` after the width, a width or precision given by
`*` or after a `.`, and every other verb (`x`, `q`, `t`, ...). No statement
below depends on the rendering of a format outside the fragment. -/

namespace fmt

/-- Padding to a width, counted in characters: on the right under the `-` flag,
on the left otherwise. -/
def pad (minus : Bool) (width : Nat) (s : List Char) : List Char :=
  if minus then s ++ List.replicate (width - s.length) ' '
  else List.replicate (width - s.length) ' ' ++ s

/-- The operand as `type=value`, used by the error markers of `fmt`. -/
def typed : Value → List Char
  | .int n => "int=".data ++ (Int.repr n).data
  | .str s => "string=".data ++ s.data

/-- The character printed by `%c` for an integer operand. -/
def rune (n : Int) : Char :=
  if 0 ≤ n ∧ n.toNat.isValidChar then Char.ofNat n.toNat else Char.ofNat 0xFFFD

/-- One verb applied to one operand. -/
def printVerb (verb : Char) (minus : Bool) (width : Nat) : Value → List Char
  | .int n =>
    if verb = 'd' ∨ verb = 'v' then pad minus width (Int.repr n).data
    else if verb = 'c' then pad minus width [rune n]
    else '%' :: '!' :: verb :: '(' :: (typed (.int n) ++ [')'])
  | .str s =>
    if verb = 's' ∨ verb = 'v' then pad minus width s.data
    else '%' :: '!' :: verb :: '(' :: (typed (.str s) ++ [')'])

/-- The marker appended for operands that no directive consumed. -/
def extra : List Value → List Char
  | [] => []
  | a :: rest =>
    "%!(EXTRA ".data ++ typed a ++ (rest.map fun b => ", ".data ++ typed b).flatten ++ [')']

/-- The formatting loop. `spec = none` while copying text, and
`spec = some (minus, width)` between a `%` and its verb. -/
def doPrintf : Option (Bool × Nat) → List Char → List Value → List Char
  | none, [], a => extra a
  | none, c :: cs, a =>
    if c = '%' then doPrintf (some (false, 0)) cs a else c :: doPrintf none cs a
  | some _, [], a => "%!(NOVERB)".data ++ extra a
  | some (minus, width), c :: cs, a =>
    if c = '%' then '%' :: doPrintf none cs a
    else if c = '-' then doPrintf (some (true, width)) cs a
    else if c.isDigit then doPrintf (some (minus, 10 * width + (c.toNat - '0'.toNat))) cs a
    else match a with
      | [] => '%' :: '!' :: c :: "(MISSING)".data ++ doPrintf none cs []
      | x :: rest => printVerb c minus width x ++ doPrintf none cs rest

/-- Model of `fmt.Sprintf(format, a...)`. -/
def Sprintf (format : String) (a : List Value) : String :=
  ⟨doPrintf none format.data a⟩

/-- Model of `fmt.Sprintln(a...)`: the operands in their default format,
always separated by a space, followed by a newline. -/
def Sprintln (a : List Value) : String :=
  ⟨(List.intersperse [' '] (a.map (printVerb 'v' false 0))).flatten ++ ['\n']⟩

end fmt

/-! ## The part of `log` used by `clog.go` -/

namespace log

def Ldate : Int := 1
def Ltime : Int := 2
def Lmicroseconds : Int := 4
def Llongfile : Int := 8
def Lshortfile : Int := 16
def LUTC : Int := 32
def Lmsgprefix : Int := 64
def LstdFlags : Int := Int.lor Ldate Ltime

/-- The conversion `int32(n)` of a Go `int`: the low 32 bits of `n`, read as a
signed number. -/
def int32 (n : Int) : Int := (n + 2147483648) % 4294967296 - 2147483648

/-- Model of `log.Logger`: the output destination, the prefix and the flags.
The flags are kept as an `int32`. -/
structure Logger where
  out : Writer
  prefix_ : String
  flag : Int
  deriving DecidableEq, Repr

/-- What the clock and the call stack contribute to a header at the moment of a
call: the date/time text and the `file:line: ` text, for the given flags. -/
structure Env where
  stamp : Int → String
  caller : Int → String

/-- Model of `log.New(out, prefix, flag)`; the flags are stored as
`int32(flag)`. -/
def New (out : Writer) (p : String) (flag : Int) : Logger :=
  { out := out, prefix_ := p, flag := int32 flag }

/-- Model of `(*log.Logger).SetOutput`. -/
def Logger.SetOutput (l : Logger) (w : Writer) : Logger := { l with out := w }

/-- Model of `(*log.Logger).SetPrefix`. -/
def Logger.SetPrefix (l : Logger) (p : String) : Logger := { l with prefix_ := p }

/-- Model of `(*log.Logger).SetFlags`: stores `int32(flag)`. -/
def Logger.SetFlags (l : Logger) (flag : Int) : Logger := { l with flag := int32 flag }

/-- Model of `(*log.Logger).formatHeader`: the prefix (unless `Lmsgprefix`), the
date/time text if a date/time flag is set, the file text if a file flag is set,
and the prefix (if `Lmsgprefix`). -/
def Logger.formatHeader (l : Logger) (env : Env) : String :=
  (if Int.land l.flag Lmsgprefix = 0 then l.prefix_ else "")
  ++ (if Int.land l.flag (Int.lor Ldate (Int.lor Ltime Lmicroseconds)) ≠ 0
      then env.stamp l.flag else "")
  ++ (if Int.land l.flag (Int.lor Lshortfile Llongfile) ≠ 0 then env.caller l.flag else "")
  ++ (if Int.land l.flag Lmsgprefix ≠ 0 then l.prefix_ else "")

/-- Model of `(*log.Logger).Output`: header, then the text, then a newline if
the text does not already end in one; the whole buffer goes to the output in
one `Write`. -/
def Logger.Output (l : Logger) (env : Env) (s : String) (sinks : Sinks) : Sinks :=
  let buf := l.formatHeader env ++ s
  let buf := if s.data.getLast? = some '\n' then buf else buf ++ "\n"
  sinks.Write l.out buf

/-- Model of `(*log.Logger).Println`. -/
def Logger.Println (l : Logger) (env : Env) (v : List Value) (sinks : Sinks) : Sinks :=
  l.Output env (fmt.Sprintln v) sinks

/-- Model of `(*log.Logger).Printf`. -/
def Logger.Printf (l : Logger) (env : Env) (format : String) (v : List Value)
    (sinks : Sinks) : Sinks :=
  l.Output env (fmt.Sprintf format v) sinks

end log

/-! ## `clog.go`: types, constants -/

/-- The type `Level` (`uint8`). -/
abbrev Level := Fin 256

def DebugLevel : Level := 0
def InfoLevel : Level := 1
def WarnLevel : Level := 2
def ErrorLevel : Level := 3
def FatalLevel : Level := 4
def Off : Level := 5

def debugColor : Int := 32
def infoColor : Int := 34
def warnColor : Int := 33
def errorColor : Int := 35
def fatalColor : Int := 31
def prefixColor : Int := 36

def defaultPattern : String :=
  fmt.Sprintf "%c[%d;%%dm%%-8s%c[0m" [.int 0x1B, .int 1, .int 0x1B]

def defaultPatternDisableColor : String := "%-8s"

def defaultPrefixPattern : String :=
  fmt.Sprintf "%c[%d;%dm%%s%c[0m" [.int 0x1B, .int 1, .int prefixColor, .int 0x1B]

def defaultFlags : Int := log.LstdFlags

/-- The struct `Logger`. -/
structure Logger where
  writer : Writer
  prefix_ : String
  prefixPattern : String
  flags : Int
  level : Level
  enableColor : Bool
  debugLogger : log.Logger
  infoLogger : log.Logger
  warnLogger : log.Logger
  errorLogger : log.Logger
  fatalLogger : log.Logger
  deriving DecidableEq, Repr

/-- The program state: the registry `loggers` (a `*Logger` is an index into
it) and the contents of the sinks. -/
structure State where
  loggers : List Logger
  sinks : Sinks

/-! ## `clog.go`: construction, accessors and mutators of one logger -/

/-- The logger that `New` builds (the body of `New` up to the composite
literal); `New` then registers it. -/
def newLogger (writer : Writer) (p : String) : Logger :=
  let prefixPattern := fmt.Sprintf defaultPrefixPattern [.str p]
  let debugLogger := log.New writer
    (prefixPattern ++ fmt.Sprintf defaultPattern [.int debugColor, .str "[DEBUG]"]) defaultFlags
  let infoLogger := log.New writer
    (prefixPattern ++ fmt.Sprintf defaultPattern [.int infoColor, .str "[INFO]"]) defaultFlags
  let warnLogger := log.New writer
    (prefixPattern ++ fmt.Sprintf defaultPattern [.int warnColor, .str "[WARN]"]) defaultFlags
  let errorLogger := log.New writer
    (prefixPattern ++ fmt.Sprintf defaultPattern [.int errorColor, .str "[ERROR]"]) defaultFlags
  let fatalLogger := log.New writer
    (prefixPattern ++ fmt.Sprintf defaultPattern [.int fatalColor, .str "[FATAL]"]) defaultFlags
  { writer := writer
    prefix_ := p
    prefixPattern := prefixPattern
    flags := defaultFlags
    level := DebugLevel
    enableColor := true
    debugLogger := debugLogger
    infoLogger := infoLogger
    warnLogger := warnLogger
    errorLogger := errorLogger
    fatalLogger := fatalLogger }

/-- The function `New`: builds the logger, appends it to the registry and
returns the pointer to it (its index) with the new state. -/
def New (writer : Writer) (p : String) (s : State) : Nat × State :=
  let logger := newLogger writer p
  (s.loggers.length, { s with loggers := s.loggers ++ [logger] })

def Logger.Writer (logger : Logger) : Clog.Writer := logger.writer

def Logger.Prefix (logger : Logger) : String := logger.prefix_

def Logger.Flags (logger : Logger) : Int := logger.flags

def Logger.Level (logger : Logger) : Clog.Level := logger.level

def Logger.IsColorEnabled (logger : Logger) : Bool := logger.enableColor

/-- The method `SetWriter`, as a function of the logger it is called on. -/
def Logger.SetWriter (logger : Logger) (writer : Clog.Writer) : Logger :=
  { logger with
    writer := writer
    debugLogger := logger.debugLogger.SetOutput writer
    infoLogger := logger.infoLogger.SetOutput writer
    warnLogger := logger.warnLogger.SetOutput writer
    errorLogger := logger.errorLogger.SetOutput writer
    fatalLogger := logger.fatalLogger.SetOutput writer }

/-- The method `SetPrefix`, as a function of the logger it is called on. -/
def Logger.SetPrefix (logger : Logger) (p : String) : Logger :=
  let logger := { logger with prefix_ := p }
  let logger := { logger with prefixPattern := fmt.Sprintf defaultPrefixPattern [.str p] }
  if logger.enableColor then
    { logger with
      debugLogger := logger.debugLogger.SetPrefix
        (logger.prefixPattern ++ fmt.Sprintf defaultPattern [.int debugColor, .str "[DEBUG]"])
      infoLogger := logger.infoLogger.SetPrefix
        (logger.prefixPattern ++ fmt.Sprintf defaultPattern [.int infoColor, .str "[INFO]"])
      warnLogger := logger.warnLogger.SetPrefix
        (logger.prefixPattern ++ fmt.Sprintf defaultPattern [.int warnColor, .str "[WARN]"])
      errorLogger := logger.errorLogger.SetPrefix
        (logger.prefixPattern ++ fmt.Sprintf defaultPattern [.int errorColor, .str "[ERROR]"])
      fatalLogger := logger.fatalLogger.SetPrefix
        (logger.prefixPattern ++ fmt.Sprintf defaultPattern [.int fatalColor, .str "[FATAL]"]) }
  else
    { logger with
      debugLogger := logger.debugLogger.SetPrefix
        (logger.prefix_ ++ fmt.Sprintf defaultPatternDisableColor [.str "[DEBUG]"])
      infoLogger := logger.infoLogger.SetPrefix
        (logger.prefix_ ++ fmt.Sprintf defaultPatternDisableColor [.str "[INFO]"])
      warnLogger := logger.warnLogger.SetPrefix
        (logger.prefix_ ++ fmt.Sprintf defaultPatternDisableColor [.str "[WARN]"])
      errorLogger := logger.errorLogger.SetPrefix
        (logger.prefix_ ++ fmt.Sprintf defaultPatternDisableColor [.str "[ERROR]"])
      fatalLogger := logger.fatalLogger.SetPrefix
        (logger.prefix_ ++ fmt.Sprintf defaultPatternDisableColor [.str "[FATAL]"]) }

/-- The method `SetFlags`, as a function of the logger it is called on. -/
def Logger.SetFlags (logger : Logger) (flags : Int) : Logger :=
  { logger with
    flags := flags
    debugLogger := logger.debugLogger.SetFlags flags
    infoLogger := logger.infoLogger.SetFlags flags
    warnLogger := logger.warnLogger.SetFlags flags
    errorLogger := logger.errorLogger.SetFlags flags
    fatalLogger := logger.fatalLogger.SetFlags flags }

/-- The method `SetLevel`, as a function of the logger it is called on. -/
def Logger.SetLevel (logger : Logger) (level : Clog.Level) : Logger :=
  { logger with level := level }

/-- The method `DisableColor`, as a function of the logger it is called on. -/
def Logger.DisableColor (logger : Logger) : Logger :=
  let logger := { logger with enableColor := false }
  logger.SetPrefix logger.prefix_

/-- The method `EnableColor`, as a function of the logger it is called on. -/
def Logger.EnableColor (logger : Logger) : Logger :=
  let logger := { logger with enableColor := true }
  logger.SetPrefix logger.prefix_

/-! ## `clog.go`: the ten emit methods

An emit method does not assign to the logger; its effect is on the sinks. -/

def Logger.Debug (logger : Logger) (env : log.Env) (v : List Value) (sinks : Sinks) : Sinks :=
  if logger.level > DebugLevel then sinks
  else logger.debugLogger.Println env v sinks

def Logger.Debugf (logger : Logger) (env : log.Env) (format : String) (v : List Value)
    (sinks : Sinks) : Sinks :=
  if logger.level > DebugLevel then sinks
  else logger.debugLogger.Printf env format v sinks

def Logger.Info (logger : Logger) (env : log.Env) (v : List Value) (sinks : Sinks) : Sinks :=
  if logger.level > InfoLevel then sinks
  else logger.infoLogger.Println env v sinks

def Logger.Infof (logger : Logger) (env : log.Env) (format : String) (v : List Value)
    (sinks : Sinks) : Sinks :=
  if logger.level > InfoLevel then sinks
  else logger.infoLogger.Printf env format v sinks

def Logger.Warn (logger : Logger) (env : log.Env) (v : List Value) (sinks : Sinks) : Sinks :=
  if logger.level > WarnLevel then sinks
  else logger.warnLogger.Println env v sinks

def Logger.Warnf (logger : Logger) (env : log.Env) (format : String) (v : List Value)
    (sinks : Sinks) : Sinks :=
  if logger.level > WarnLevel then sinks
  else logger.warnLogger.Printf env format v sinks

def Logger.Error (logger : Logger) (env : log.Env) (v : List Value) (sinks : Sinks) : Sinks :=
  if logger.level > ErrorLevel then sinks
  else logger.errorLogger.Println env v sinks

def Logger.Errorf (logger : Logger) (env : log.Env) (format : String) (v : List Value)
    (sinks : Sinks) : Sinks :=
  if logger.level > ErrorLevel then sinks
  else logger.errorLogger.Printf env format v sinks

def Logger.Fatal (logger : Logger) (env : log.Env) (v : List Value) (sinks : Sinks) : Sinks :=
  if logger.level > FatalLevel then sinks
  else logger.fatalLogger.Println env v sinks

def Logger.Fatalf (logger : Logger) (env : log.Env) (format : String) (v : List Value)
    (sinks : Sinks) : Sinks :=
  if logger.level > FatalLevel then sinks
  else logger.fatalLogger.Printf env format v sinks

/-! ## Calls through a pointer, and the broadcast functions -/

/-- A call `logger.M(args)` of a mutator through the pointer `i`: the logger at
position `i` of the registry is replaced by the result of `M`. -/
def State.mutate (s : State) (i : Nat) (M : Logger → Logger) : State :=
  { s with loggers := s.loggers.modify M i }

/-- A call of an emit method through the pointer `i`. -/
def State.emit (s : State) (i : Nat) (E : Logger → Sinks → Sinks) : State :=
  match s.loggers[i]? with
  | some logger => { s with sinks := E logger s.sinks }
  | none => s

/-- The loop `for _, logger := range loggers { body }`: the slice is read once,
and `body` runs on its elements from the first to the last. -/
def rangeLoggers (body : Nat → State → State) (s : State) : State :=
  (List.range s.loggers.length).foldl (fun st i => body i st) s

def SetWriterAll (writer : Writer) (s : State) : State :=
  rangeLoggers (fun i st => st.mutate i fun logger => logger.SetWriter writer) s

def SetPrefixAll (p : String) (s : State) : State :=
  rangeLoggers (fun i st => st.mutate i fun logger => logger.SetPrefix p) s

def SetFlagsAll (flags : Int) (s : State) : State :=
  rangeLoggers (fun i st => st.mutate i fun logger => logger.SetFlags flags) s

def SetLevelAll (level : Level) (s : State) : State :=
  rangeLoggers (fun i st => st.mutate i fun logger => logger.SetLevel level) s

def DisableColorAll (s : State) : State :=
  rangeLoggers (fun i st => st.mutate i fun logger => logger.DisableColor) s

def EnableColorAll (s : State) : State :=
  rangeLoggers (fun i st => st.mutate i fun logger => logger.EnableColor) s

/-! ## Vocabulary of the statements -/

/-- The five severities that have emit methods. -/
inductive Severity where
  | debug | info | warn | error | fatal
  deriving DecidableEq, Repr

/-- The level constant that the emit methods of a severity compare against. -/
def Severity.level : Severity → Level
  | .debug => DebugLevel
  | .info => InfoLevel
  | .warn => WarnLevel
  | .error => ErrorLevel
  | .fatal => FatalLevel

/-- The emitter of a severity. -/
def Logger.emitter (logger : Logger) : Severity → log.Logger
  | .debug => logger.debugLogger
  | .info => logger.infoLogger
  | .warn => logger.warnLogger
  | .error => logger.errorLogger
  | .fatal => logger.fatalLogger

/-- A call of one of the ten emit methods: `S(v...)` when `format = none`,
`Sf(format, v...)` otherwise. -/
structure EmitCall where
  sev : Severity
  format : Option String
  v : List Value
  deriving DecidableEq, Repr

/-- The emit method that a call names, applied to its arguments. -/
def Logger.call (logger : Logger) (env : log.Env) (c : EmitCall) (sinks : Sinks) : Sinks :=
  match c.sev, c.format with
  | .debug, none => logger.Debug env c.v sinks
  | .debug, some f => logger.Debugf env f c.v sinks
  | .info, none => logger.Info env c.v sinks
  | .info, some f => logger.Infof env f c.v sinks
  | .warn, none => logger.Warn env c.v sinks
  | .warn, some f => logger.Warnf env f c.v sinks
  | .error, none => logger.Error env c.v sinks
  | .error, some f => logger.Errorf env f c.v sinks
  | .fatal, none => logger.Fatal env c.v sinks
  | .fatal, some f => logger.Fatalf env f c.v sinks

/-- The states of one logger that the package can produce: `New`, followed by
any calls of the six mutators (directly or through a broadcast). -/
inductive Reachable : Logger → Prop
  | New (writer : Writer) (p : String) : Reachable (newLogger writer p)
  | SetWriter {logger : Logger} (writer : Writer) :
      Reachable logger → Reachable (logger.SetWriter writer)
  | SetPrefix {logger : Logger} (p : String) :
      Reachable logger → Reachable (logger.SetPrefix p)
  | SetFlags {logger : Logger} (flags : Int) :
      Reachable logger → Reachable (logger.SetFlags flags)
  | SetLevel {logger : Logger} (level : Level) :
      Reachable logger → Reachable (logger.SetLevel level)
  | EnableColor {logger : Logger} : Reachable logger → Reachable logger.EnableColor
  | DisableColor {logger : Logger} : Reachable logger → Reachable logger.DisableColor

/-- The five emitters carry the colourised rendering of `p`: the prefix in
colour 36, then the tag, padded to width 8, in the colour of its severity. -/
def ColourPrefixes (logger : Logger) (p : String) : Prop :=
  logger.debugLogger.prefix_ = "\x1b[1;36m" ++ p ++ "\x1b[0m" ++ "\x1b[1;32m[DEBUG] \x1b[0m"
  ∧ logger.infoLogger.prefix_ = "\x1b[1;36m" ++ p ++ "\x1b[0m" ++ "\x1b[1;34m[INFO]  \x1b[0m"
  ∧ logger.warnLogger.prefix_ = "\x1b[1;36m" ++ p ++ "\x1b[0m" ++ "\x1b[1;33m[WARN]  \x1b[0m"
  ∧ logger.errorLogger.prefix_ = "\x1b[1;36m" ++ p ++ "\x1b[0m" ++ "\x1b[1;35m[ERROR] \x1b[0m"
  ∧ logger.fatalLogger.prefix_ = "\x1b[1;36m" ++ p ++ "\x1b[0m" ++ "\x1b[1;31m[FATAL] \x1b[0m"

/-- The five emitters carry the plain rendering of `p`: the prefix, then the
tag padded to width 8. -/
def PlainPrefixes (logger : Logger) (p : String) : Prop :=
  logger.debugLogger.prefix_ = p ++ "[DEBUG] "
  ∧ logger.infoLogger.prefix_ = p ++ "[INFO]  "
  ∧ logger.warnLogger.prefix_ = p ++ "[WARN]  "
  ∧ logger.errorLogger.prefix_ = p ++ "[ERROR] "
  ∧ logger.fatalLogger.prefix_ = p ++ "[FATAL] "

/-- Every emitter has the writer of its logger, the flags of its logger
converted to `int32`, and the rendering of the logger's prefix under the
logger's colour flag. -/
def Lockstep (logger : Logger) : Prop :=
  (∀ sev, (logger.emitter sev).out = logger.writer)
  ∧ (∀ sev, (logger.emitter sev).flag = log.int32 logger.flags)
  ∧ (logger.enableColor = true → ColourPrefixes logger logger.prefix_)
  ∧ (logger.enableColor = false → PlainPrefixes logger logger.prefix_)

/-- A call of `SetPrefix` or of `SetWriter`. -/
inductive PrefixOrWriterCall where
  | SetPrefix (p : String)
  | SetWriter (writer : Writer)
  deriving DecidableEq, Repr

/-- The effect of such a call on the logger it is made on. -/
def PrefixOrWriterCall.run (logger : Logger) : PrefixOrWriterCall → Logger
  | .SetPrefix p => logger.SetPrefix p
  | .SetWriter writer => logger.SetWriter writer

/-- What the specification says of a broadcast `MAll(args)`: every registered
logger ends in the state that `M(args)` gives it, the registry keeps its length
and order, and nothing else changes. -/
def broadcastSpec (M : Logger → Logger) (s : State) : State :=
  { loggers := s.loggers.map M, sinks := s.sinks }

/-- An environment whose clock and call stack contribute nothing. -/
def quietEnv : log.Env := { stamp := fun _ => "", caller := fun _ => "" }

/-- Sinks that have received nothing. -/
def noSinks : Sinks := fun _ => []


/-! ## Operations on the program state -/

/-- A call of an exported function or method of the package. Methods are
called through a pointer `i`; `accessor` is a call of one of `Writer`,
`Prefix`, `Flags`, `Level`, `IsColorEnabled`, which read one field and assign
nothing. -/
inductive Op where
  | New (writer : Writer) (p : String)
  | SetWriter (i : Nat) (writer : Writer)
  | SetPrefix (i : Nat) (p : String)
  | SetFlags (i : Nat) (flags : Int)
  | SetLevel (i : Nat) (level : Level)
  | EnableColor (i : Nat)
  | DisableColor (i : Nat)
  | SetWriterAll (writer : Writer)
  | SetPrefixAll (p : String)
  | SetFlagsAll (flags : Int)
  | SetLevelAll (level : Level)
  | EnableColorAll
  | DisableColorAll
  | accessor (i : Nat)
  | emit (i : Nat) (env : log.Env) (c : EmitCall)

/-- The state after a call. -/
def Op.run : Op → State → State
  | .New writer p, s => (Clog.New writer p s).2
  | .SetWriter i writer, s => s.mutate i fun logger => logger.SetWriter writer
  | .SetPrefix i p, s => s.mutate i fun logger => logger.SetPrefix p
  | .SetFlags i flags, s => s.mutate i fun logger => logger.SetFlags flags
  | .SetLevel i level, s => s.mutate i fun logger => logger.SetLevel level
  | .EnableColor i, s => s.mutate i fun logger => logger.EnableColor
  | .DisableColor i, s => s.mutate i fun logger => logger.DisableColor
  | .SetWriterAll writer, s => Clog.SetWriterAll writer s
  | .SetPrefixAll p, s => Clog.SetPrefixAll p s
  | .SetFlagsAll flags, s => Clog.SetFlagsAll flags s
  | .SetLevelAll level, s => Clog.SetLevelAll level s
  | .EnableColorAll, s => Clog.EnableColorAll s
  | .DisableColorAll, s => Clog.DisableColorAll s
  | .accessor _, s => s
  | .emit i env c, s => s.emit i fun logger => logger.call env c

/-- Whether the call is a call of `New`. -/
def Op.isNew : Op → Bool
  | .New _ _ => true
  | _ => false

/-- The program states that calls of the package produce, starting with an
empty registry. -/
inductive ReachableState : State → Prop
  | start (sinks : Sinks) : ReachableState { loggers := [], sinks := sinks }
  | step {s : State} (op : Op) : ReachableState s → ReachableState (op.run s)

/-- The text that an emit call hands to its emitter: `Sprintln` of the operands
for `S(v...)`, `Sprintf` for `Sf(format, v...)`. -/
def EmitCall.text (c : EmitCall) : String :=
  match c.format with
  | none => fmt.Sprintln c.v
  | some f => fmt.Sprintf f c.v

/-- The part of a header that the flags add: the date/time text, then the file
text. -/
def log.Logger.ancillary (l : log.Logger) (env : log.Env) : String :=
  (if Int.land l.flag (Int.lor Ldate (Int.lor Ltime Lmicroseconds)) ≠ 0
    then env.stamp l.flag else "")
  ++ (if Int.land l.flag (Int.lor Lshortfile Llongfile) ≠ 0 then env.caller l.flag else "")

/-- The newline that `Output` adds to a text that does not end in one. -/
def lineEnd (s : String) : String :=
  if s.data.getLast? = some '\n' then "" else "\n"

/-- An environment with a clock: the date/time text is that of the example in
the documentation of `log`. -/
def clockEnv : log.Env := { stamp := fun _ => "2009/01/23 01:23:23 ", caller := fun _ => "" }

/-! ## Lemmas on the sinks and the formatter -/

theorem Sinks.Write_ne (sinks : Sinks) (w : Writer) (buf : String) :
    sinks.Write w buf ≠ sinks := by
  intro h
  have := congrFun h w
  simp [Sinks.Write] at this

theorem log.Logger.Output_eq (l : log.Logger) (env : log.Env) (s : String) (sinks : Sinks) :
    ∃ buf, l.Output env s sinks = sinks.Write l.out buf :=
  ⟨_, rfl⟩

theorem Sprintf_defaultPrefixPattern (p : String) :
    fmt.Sprintf defaultPrefixPattern [.str p] = "\x1b[1;36m" ++ p ++ "\x1b[0m" := by
  have h : defaultPrefixPattern = "\x1b[1;36m%s\x1b[0m" := by decide
  rw [h]
  apply String.ext
  simp [fmt.Sprintf, fmt.doPrintf, fmt.printVerb, fmt.pad, fmt.extra]

theorem Sprintf_debug : fmt.Sprintf defaultPattern [.int debugColor, .str "[DEBUG]"]
    = "\x1b[1;32m[DEBUG] \x1b[0m" := by decide

theorem Sprintf_info : fmt.Sprintf defaultPattern [.int infoColor, .str "[INFO]"]
    = "\x1b[1;34m[INFO]  \x1b[0m" := by decide

theorem Sprintf_warn : fmt.Sprintf defaultPattern [.int warnColor, .str "[WARN]"]
    = "\x1b[1;33m[WARN]  \x1b[0m" := by decide

theorem Sprintf_error : fmt.Sprintf defaultPattern [.int errorColor, .str "[ERROR]"]
    = "\x1b[1;35m[ERROR] \x1b[0m" := by decide

theorem Sprintf_fatal : fmt.Sprintf defaultPattern [.int fatalColor, .str "[FATAL]"]
    = "\x1b[1;31m[FATAL] \x1b[0m" := by decide

theorem Sprintf_plain_debug :
    fmt.Sprintf defaultPatternDisableColor [.str "[DEBUG]"] = "[DEBUG] " := by decide

theorem Sprintf_plain_info :
    fmt.Sprintf defaultPatternDisableColor [.str "[INFO]"] = "[INFO]  " := by decide

theorem Sprintf_plain_warn :
    fmt.Sprintf defaultPatternDisableColor [.str "[WARN]"] = "[WARN]  " := by decide

theorem Sprintf_plain_error :
    fmt.Sprintf defaultPatternDisableColor [.str "[ERROR]"] = "[ERROR] " := by decide

theorem Sprintf_plain_fatal :
    fmt.Sprintf defaultPatternDisableColor [.str "[FATAL]"] = "[FATAL] " := by decide

/-- `Sprintln` of one string is that string and a newline. -/
theorem Sprintln_str (m : String) : fmt.Sprintln [.str m] = m ++ "\n" := by
  apply String.ext
  simp [fmt.Sprintln, fmt.printVerb, fmt.pad]

/-! ## The rendering done by `New`, `SetPrefix` and the colour switches -/

theorem newLogger_colour (writer : Writer) (p : String) :
    ColourPrefixes (newLogger writer p) p := by
  simp [ColourPrefixes, newLogger, log.New, Sprintf_defaultPrefixPattern, Sprintf_debug,
    Sprintf_info, Sprintf_warn, Sprintf_error, Sprintf_fatal]

theorem SetPrefix_colour (logger : Logger) (p : String) (h : logger.enableColor = true) :
    ColourPrefixes (logger.SetPrefix p) p := by
  simp [ColourPrefixes, Logger.SetPrefix, h, log.Logger.SetPrefix, Sprintf_defaultPrefixPattern,
    Sprintf_debug, Sprintf_info, Sprintf_warn, Sprintf_error, Sprintf_fatal]

theorem SetPrefix_plain (logger : Logger) (p : String) (h : logger.enableColor = false) :
    PlainPrefixes (logger.SetPrefix p) p := by
  simp [PlainPrefixes, Logger.SetPrefix, h, log.Logger.SetPrefix, Sprintf_plain_debug,
    Sprintf_plain_info, Sprintf_plain_warn, Sprintf_plain_error, Sprintf_plain_fatal]

theorem EnableColor_colour (logger : Logger) :
    ColourPrefixes logger.EnableColor logger.prefix_ :=
  SetPrefix_colour _ _ rfl

theorem DisableColor_plain (logger : Logger) :
    PlainPrefixes logger.DisableColor logger.prefix_ :=
  SetPrefix_plain _ _ rfl

/-! ## The conversion to `int32` -/

/-- A value in the `int32` range is its own conversion. -/
theorem int32_of_range (n : Int) (h1 : -2147483648 ≤ n) (h2 : n < 2147483648) :
    log.int32 n = n := by
  unfold log.int32
  omega

theorem nat_land_64 (m : Nat) : m &&& 64 = 0 ↔ m % 128 < 64 := by
  have hb : m.testBit 6 = decide (m / 2 ^ 6 % 2 = 1) := Nat.testBit_to_div_mod
  constructor
  · intro h
    have h1 : (m &&& 64).testBit 6 = false := by rw [h]; simp
    rw [Nat.testBit_and, hb] at h1
    have h2 : Nat.testBit 64 6 = true := by decide
    rw [h2] at h1
    simp at h1
    omega
  · intro h
    apply Nat.eq_of_testBit_eq
    intro i
    rw [Nat.testBit_and, Nat.zero_testBit]
    by_cases hi : i = 6
    · subst hi
      rw [hb]
      have : ¬ (m / 64 % 2 = 1) := by omega
      simp [this]
    · have : Nat.testBit 64 i = false := by
        have := @Nat.testBit_two_pow_of_ne 6 i (fun h => hi h.symm)
        simpa using this
      simp [this]

theorem nat_ldiff_64 (m : Nat) : Nat.ldiff 64 m = 0 ↔ 64 ≤ m % 128 := by
  have hb : m.testBit 6 = decide (m / 2 ^ 6 % 2 = 1) := Nat.testBit_to_div_mod
  constructor
  · intro h
    have h1 : (Nat.ldiff 64 m).testBit 6 = false := by rw [h]; simp
    rw [Nat.testBit_ldiff, hb] at h1
    have h2 : Nat.testBit 64 6 = true := by decide
    rw [h2] at h1
    simp at h1
    omega
  · intro h
    apply Nat.eq_of_testBit_eq
    intro i
    rw [Nat.testBit_ldiff, Nat.zero_testBit]
    by_cases hi : i = 6
    · subst hi
      rw [hb]
      have : m / 64 % 2 = 1 := by omega
      simp [this]
    · have : Nat.testBit 64 i = false := by
        have := @Nat.testBit_two_pow_of_ne 6 i (fun h => hi h.symm)
        simpa using this
      simp [this]

/-- The `Lmsgprefix` bit of an integer in two's complement. -/
theorem int_land_64 (f : Int) : Int.land f 64 = 0 ↔ f % 128 < 64 := by
  cases f with
  | ofNat m =>
    show Int.land (Int.ofNat m) (Int.ofNat 64) = 0 ↔ _
    simp only [Int.land]
    rw [Int.natCast_eq_zero, nat_land_64]
    simp only [Int.ofNat_eq_coe]
    omega
  | negSucc m =>
    show Int.land (Int.negSucc m) (Int.ofNat 64) = 0 ↔ _
    simp only [Int.land]
    rw [Int.natCast_eq_zero, nat_ldiff_64, Int.negSucc_eq]
    omega

/-- The conversion to `int32` keeps the `Lmsgprefix` bit. -/
theorem int32_land_Lmsgprefix (f : Int) :
    Int.land (log.int32 f) log.Lmsgprefix = 0 ↔ Int.land f log.Lmsgprefix = 0 := by
  show Int.land (log.int32 f) 64 = 0 ↔ Int.land f 64 = 0
  rw [int_land_64, int_land_64]
  unfold log.int32
  omega

/-! ## The lockstep invariant -/

theorem newLogger_lockstep (writer : Writer) (p : String) : Lockstep (newLogger writer p) := by
  refine ⟨?_, ?_, fun _ => newLogger_colour writer p, ?_⟩
  · intro sev; cases sev <;> rfl
  · intro sev; cases sev <;> rfl
  · intro h; simp [newLogger] at h

theorem SetWriter_lockstep {logger : Logger} (writer : Writer) (h : Lockstep logger) :
    Lockstep (logger.SetWriter writer) := by
  obtain ⟨_, hf, hc, hp⟩ := h
  refine ⟨?_, ?_, hc, hp⟩
  · intro sev; cases sev <;> rfl
  · intro sev; have := hf sev; cases sev <;> exact this

theorem SetFlags_lockstep {logger : Logger} (flags : Int) (h : Lockstep logger) :
    Lockstep (logger.SetFlags flags) := by
  obtain ⟨ho, _, hc, hp⟩ := h
  refine ⟨?_, ?_, hc, hp⟩
  · intro sev; have := ho sev; cases sev <;> exact this
  · intro sev; cases sev <;> rfl

theorem SetLevel_lockstep {logger : Logger} (level : Level) (h : Lockstep logger) :
    Lockstep (logger.SetLevel level) := h

/-- What `SetPrefix` leaves alone. -/
theorem SetPrefix_fields (logger : Logger) (p : String) :
    (logger.SetPrefix p).writer = logger.writer ∧ (logger.SetPrefix p).flags = logger.flags
    ∧ (logger.SetPrefix p).level = logger.level
    ∧ (logger.SetPrefix p).enableColor = logger.enableColor
    ∧ (logger.SetPrefix p).prefix_ = p
    ∧ (∀ sev, ((logger.SetPrefix p).emitter sev).out = (logger.emitter sev).out)
    ∧ (∀ sev, ((logger.SetPrefix p).emitter sev).flag = (logger.emitter sev).flag) := by
  cases hc : logger.enableColor <;>
    simp [Logger.SetPrefix, hc] <;>
    constructor <;> intro sev <;> cases sev <;> rfl

/-- `SetPrefix` establishes the invariant as soon as the writers and flags of
the emitters are those of the logger. -/
theorem SetPrefix_lockstep_of {logger : Logger} (p : String)
    (ho : ∀ sev, (logger.emitter sev).out = logger.writer)
    (hf : ∀ sev, (logger.emitter sev).flag = log.int32 logger.flags) :
    Lockstep (logger.SetPrefix p) := by
  obtain ⟨hw, hfl, _, hc, hp, heo, hef⟩ := SetPrefix_fields logger p
  refine ⟨?_, ?_, ?_, ?_⟩
  · intro sev; rw [heo, hw]; exact ho sev
  · intro sev; rw [hef, hfl]; exact hf sev
  · intro h; rw [hp]; exact SetPrefix_colour _ _ (hc ▸ h)
  · intro h; rw [hp]; exact SetPrefix_plain _ _ (hc ▸ h)

theorem SetPrefix_lockstep {logger : Logger} (p : String) (h : Lockstep logger) :
    Lockstep (logger.SetPrefix p) :=
  SetPrefix_lockstep_of p h.1 h.2.1

theorem EnableColor_lockstep {logger : Logger} (h : Lockstep logger) :
    Lockstep logger.EnableColor := by
  apply SetPrefix_lockstep_of
  · intro sev; have := h.1 sev; cases sev <;> exact this
  · intro sev; have := h.2.1 sev; cases sev <;> exact this

theorem DisableColor_lockstep {logger : Logger} (h : Lockstep logger) :
    Lockstep logger.DisableColor := by
  apply SetPrefix_lockstep_of
  · intro sev; have := h.1 sev; cases sev <;> exact this
  · intro sev; have := h.2.1 sev; cases sev <;> exact this

/-- Every state of a logger that the package can produce is in lockstep. -/
theorem reachable_lockstep {logger : Logger} (h : Reachable logger) : Lockstep logger := by
  induction h with
  | New writer p => exact newLogger_lockstep writer p
  | SetWriter writer _ ih => exact SetWriter_lockstep writer ih
  | SetPrefix p _ ih => exact SetPrefix_lockstep p ih
  | SetFlags flags _ ih => exact SetFlags_lockstep flags ih
  | SetLevel level _ ih => exact SetLevel_lockstep level ih
  | EnableColor _ ih => exact EnableColor_lockstep ih
  | DisableColor _ ih => exact DisableColor_lockstep ih

/-! ## The emit methods -/

theorem call_of_gt (logger : Logger) (env : log.Env) (c : EmitCall) (sinks : Sinks)
    (h : logger.level > c.sev.level) : logger.call env c sinks = sinks := by
  obtain ⟨sev, format, v⟩ := c
  cases sev <;> cases format <;>
    simp_all [Logger.call, Severity.level, Logger.Debug, Logger.Debugf, Logger.Info,
      Logger.Infof, Logger.Warn, Logger.Warnf, Logger.Error, Logger.Errorf, Logger.Fatal,
      Logger.Fatalf]

theorem call_of_le (logger : Logger) (env : log.Env) (c : EmitCall) (sinks : Sinks)
    (h : logger.level ≤ c.sev.level) :
    ∃ buf, logger.call env c sinks = sinks.Write (logger.emitter c.sev).out buf := by
  obtain ⟨sev, format, v⟩ := c
  cases sev <;> cases format <;>
    simp only [Logger.call, Severity.level, Logger.Debug, Logger.Debugf, Logger.Info,
      Logger.Infof, Logger.Warn, Logger.Warnf, Logger.Error, Logger.Errorf, Logger.Fatal,
      Logger.Fatalf, Logger.emitter, log.Logger.Println, log.Logger.Printf, gt_iff_lt] at h ⊢ <;>
    rw [if_neg (not_lt.mpr h)] <;>
    exact log.Logger.Output_eq _ _ _ _

/-! ## The broadcast loop -/

theorem mutate_loggers (st : State) (i : Nat) (M : Logger → Logger) :
    (st.mutate i M).loggers = st.loggers.modify M i := rfl

/-- After the first `n` rounds of the loop, the first `n` registered loggers
have been through `M` and the others are as they were. -/
theorem range_mutate_getElem? (M : Logger → Logger) (s : State) (n m : Nat) :
    ((List.range n).foldl (fun st i => st.mutate i M) s).loggers[m]?
      = (s.loggers[m]?).map (fun l => if m < n then M l else l)
    ∧ ((List.range n).foldl (fun st i => st.mutate i M) s).sinks = s.sinks := by
  induction n with
  | zero => simp
  | succ n ih =>
    obtain ⟨ih1, ih2⟩ := ih
    rw [List.range_succ, List.foldl_append]
    simp only [List.foldl_cons, List.foldl_nil]
    refine ⟨?_, ih2⟩
    rw [mutate_loggers, List.getElem?_modify, ih1]
    cases s.loggers[m]? with
    | none => simp
    | some l =>
      by_cases h1 : n = m
      · subst h1; simp
      · by_cases h2 : m < n
        · have : m < n + 1 := by omega
          simp [h1, h2, this]
        · have : ¬ m < n + 1 := by omega
          simp [h1, h2, this]

/-- The loop that calls a mutator on every registered logger does what the
specification says of a broadcast. -/
theorem rangeLoggers_mutate (M : Logger → Logger) (s : State) :
    rangeLoggers (fun i st => st.mutate i M) s = broadcastSpec M s := by
  obtain ⟨h1, h2⟩ : (∀ m, (rangeLoggers (fun i st => st.mutate i M) s).loggers[m]?
      = (s.loggers[m]?).map (fun l => if m < s.loggers.length then M l else l))
      ∧ (rangeLoggers (fun i st => st.mutate i M) s).sinks = s.sinks :=
    ⟨fun m => (range_mutate_getElem? M s _ m).1, (range_mutate_getElem? M s _ 0).2⟩
  have hl : (rangeLoggers (fun i st => st.mutate i M) s).loggers = s.loggers.map M := by
    apply List.ext_getElem?
    intro m
    rw [h1, List.getElem?_map]
    by_cases hm : m < s.loggers.length
    · simp [hm]
    · simp [List.getElem?_eq_none (Nat.le_of_not_lt hm)]
  cases hr : rangeLoggers (fun i st => st.mutate i M) s with
  | mk ls σ =>
    rw [hr] at hl h2
    simp only at hl h2
    simp [broadcastSpec, hl, h2]

/-! ## Level filtering -/

/-- C1: a call of any of the ten emit methods writes if and only if the
logger's minimum level is at most the severity of the method; in particular a
call at exactly the minimum level writes. On a logger that the package can
produce, what is written is one buffer, to the logger's own writer. -/
theorem emit_writes_iff_level_le (logger : Logger) (env : log.Env) (c : EmitCall)
    (sinks : Sinks) :
    (logger.call env c sinks ≠ sinks ↔ logger.level ≤ c.sev.level)
    ∧ (logger.level = c.sev.level → logger.call env c sinks ≠ sinks)
    ∧ (Reachable logger → logger.level ≤ c.sev.level →
        ∃ buf, logger.call env c sinks = sinks.Write logger.writer buf) := by
  have hw : logger.level ≤ c.sev.level → logger.call env c sinks ≠ sinks := by
    intro h
    obtain ⟨buf, hb⟩ := call_of_le logger env c sinks h
    rw [hb]
    exact Sinks.Write_ne _ _ _
  refine ⟨⟨?_, hw⟩, fun h => hw (le_of_eq h), ?_⟩
  · intro h
    by_contra hn
    exact h (call_of_gt logger env c sinks (not_le.mp hn))
  · intro hr h
    obtain ⟨buf, hb⟩ := call_of_le logger env c sinks h
    exact ⟨buf, by rw [hb, (reachable_lockstep hr).1]⟩

/-- C2, as stated, fails when the two levels are equal: after `SetLevel(Info)`
the call `Info("x")` writes a line. -/
theorem setLevel_same_level_writes :
    InfoLevel ≤ InfoLevel
    ∧ ((newLogger 0 "svc").SetLevel InfoLevel).Info quietEnv [.str "x"] noSinks 0
        = ["\x1b[1;36msvc\x1b[0m\x1b[1;34m[INFO]  \x1b[0mx\n"]
    ∧ noSinks 0 = [] := by
  decide

/-- C2, amended: for all levels `L1 < L2` with `L1` one of Debug..Fatal, after
`SetLevel(L2)` the emit methods of `L1` produce no output. -/
theorem setLevel_above_suppresses (logger : Logger) (L2 : Level) (env : log.Env)
    (c : EmitCall) (sinks : Sinks) (h : c.sev.level < L2) :
    (logger.SetLevel L2).call env c sinks = sinks :=
  call_of_gt _ env c sinks h

theorem setLevel_above_suppresses_witness :
    InfoLevel < WarnLevel
    ∧ ((newLogger 0 "svc").SetLevel WarnLevel).call quietEnv
        { sev := .info, format := none, v := [.str "x"] } noSinks = noSinks :=
  ⟨by decide, setLevel_above_suppresses _ _ _ _ _ (by decide)⟩

/-- C3: when the minimum level is strictly greater than the severity of an
emit method, a call of it through a pointer leaves the whole state as it was:
the sinks, and the registry with every field and emitter of every logger. -/
theorem emit_below_level_no_effect (s : State) (i : Nat) (logger : Logger) (env : log.Env)
    (c : EmitCall) (hi : s.loggers[i]? = some logger) (h : logger.level > c.sev.level) :
    s.emit i (fun l => l.call env c) = s := by
  unfold State.emit
  rw [hi]
  simp only
  rw [call_of_gt logger env c s.sinks h]

theorem emit_below_level_no_effect_witness :
    (State.mk [(newLogger 0 "svc").SetLevel WarnLevel] noSinks).emit 0
        (fun l => l.call quietEnv { sev := .info, format := some "%d", v := [.int 7] })
      = State.mk [(newLogger 0 "svc").SetLevel WarnLevel] noSinks :=
  emit_below_level_no_effect _ 0 ((newLogger 0 "svc").SetLevel WarnLevel) _ _ rfl (by decide)

/-! ## Rendering of the emitter prefixes -/

/-- C4: with colour enabled (after `New(sink, p)`, after `SetPrefix(p)` on a
logger with colour enabled, after `EnableColor` on a logger whose prefix is
`p`) the five emitters carry `ESC[1;36m p ESC[0m ESC[1;c m T ESC[0m`, where `T`
is the tag padded to width 8 and `c` is 32, 34, 33, 35, 31 for debug, info,
warn, error, fatal. -/
theorem colour_prefixes_exact (writer : Writer) (p : String) (s : State) (logger : Logger) :
    (∃ l, (New writer p s).2.loggers[(New writer p s).1]? = some l ∧ l.enableColor = true
        ∧ ColourPrefixes l p)
    ∧ (logger.enableColor = true → ColourPrefixes (logger.SetPrefix p) p)
    ∧ (logger.prefix_ = p → logger.EnableColor.enableColor = true
        ∧ ColourPrefixes logger.EnableColor p) := by
  refine ⟨⟨newLogger writer p, by simp [New], rfl, newLogger_colour writer p⟩,
    SetPrefix_colour logger p, ?_⟩
  intro h
  exact ⟨(SetPrefix_fields _ _).2.2.2.1, h ▸ EnableColor_colour logger⟩

/-- The header of an emitter with flags 0 is its prefix. -/
theorem formatHeader_zero (l : log.Logger) (env : log.Env) (h : l.flag = 0) :
    l.formatHeader env = l.prefix_ := by
  have a1 : Int.land 0 log.Lmsgprefix = 0 := by decide
  have a2 : Int.land 0 (Int.lor log.Ldate (Int.lor log.Ltime log.Lmicroseconds)) = 0 := by
    decide
  have a3 : Int.land 0 (Int.lor log.Lshortfile log.Llongfile) = 0 := by decide
  simp [log.Logger.formatHeader, h, a1, a2, a3]

/-- `Println` of one string through an emitter with flags 0. -/
theorem Println_str_zero (l : log.Logger) (env : log.Env) (m : String) (sinks : Sinks)
    (h : l.flag = 0) :
    l.Println env [.str m] sinks = sinks.Write l.out (l.prefix_ ++ m ++ "\n") := by
  have hl : (m ++ "\n").data.getLast? = some '\n' := by
    simp [String.data_append]
  simp only [log.Logger.Println, log.Logger.Output, Sprintln_str, hl, if_true,
    formatHeader_zero l env h, String.append_assoc]

/-- C5: on a logger with prefix `p`, colour disabled, flags 0 and minimum level
at most `S`, the call `S(m)` with one string writes exactly `p`, the tag of `S`
padded to width 8, `m` and one newline, in one buffer, to the logger's writer. -/
theorem plain_line_exact (logger : Logger) (p m : String) (env : log.Env) (sinks : Sinks)
    (hr : Reachable logger) (hp : logger.prefix_ = p) (hc : logger.enableColor = false)
    (hf : logger.flags = 0) :
    (logger.level ≤ DebugLevel →
      logger.Debug env [.str m] sinks = sinks.Write logger.writer (p ++ "[DEBUG] " ++ m ++ "\n"))
    ∧ (logger.level ≤ InfoLevel →
      logger.Info env [.str m] sinks = sinks.Write logger.writer (p ++ "[INFO]  " ++ m ++ "\n"))
    ∧ (logger.level ≤ WarnLevel →
      logger.Warn env [.str m] sinks = sinks.Write logger.writer (p ++ "[WARN]  " ++ m ++ "\n"))
    ∧ (logger.level ≤ ErrorLevel →
      logger.Error env [.str m] sinks = sinks.Write logger.writer (p ++ "[ERROR] " ++ m ++ "\n"))
    ∧ (logger.level ≤ FatalLevel →
      logger.Fatal env [.str m] sinks
        = sinks.Write logger.writer (p ++ "[FATAL] " ++ m ++ "\n")) := by
  obtain ⟨ho, hfl, _, hpl⟩ := reachable_lockstep hr
  obtain ⟨h1, h2, h3, h4, h5⟩ := hpl hc
  have hz : log.int32 logger.flags = 0 := by rw [hf]; decide
  rw [hp] at h1 h2 h3 h4 h5
  refine ⟨?_, ?_, ?_, ?_, ?_⟩
  · intro h
    have e := Println_str_zero logger.debugLogger env m sinks ((hfl .debug).trans hz)
    rw [h1, show logger.debugLogger.out = logger.writer from ho .debug] at e
    simp only [Logger.Debug, gt_iff_lt, if_neg (not_lt.mpr h), e]
  · intro h
    have e := Println_str_zero logger.infoLogger env m sinks ((hfl .info).trans hz)
    rw [h2, show logger.infoLogger.out = logger.writer from ho .info] at e
    simp only [Logger.Info, gt_iff_lt, if_neg (not_lt.mpr h), e]
  · intro h
    have e := Println_str_zero logger.warnLogger env m sinks ((hfl .warn).trans hz)
    rw [h3, show logger.warnLogger.out = logger.writer from ho .warn] at e
    simp only [Logger.Warn, gt_iff_lt, if_neg (not_lt.mpr h), e]
  · intro h
    have e := Println_str_zero logger.errorLogger env m sinks ((hfl .error).trans hz)
    rw [h4, show logger.errorLogger.out = logger.writer from ho .error] at e
    simp only [Logger.Error, gt_iff_lt, if_neg (not_lt.mpr h), e]
  · intro h
    have e := Println_str_zero logger.fatalLogger env m sinks ((hfl .fatal).trans hz)
    rw [h5, show logger.fatalLogger.out = logger.writer from ho .fatal] at e
    simp only [Logger.Fatal, gt_iff_lt, if_neg (not_lt.mpr h), e]

theorem plain_line_exact_witness :
    Reachable ((newLogger 0 "svc").DisableColor.SetFlags 0)
    ∧ ((newLogger 0 "svc").DisableColor.SetFlags 0).level ≤ InfoLevel
    ∧ ((newLogger 0 "svc").DisableColor.SetFlags 0).Info quietEnv [.str "starting"] noSinks
      = noSinks.Write 0 "svc[INFO]  starting\n" :=
  ⟨.SetFlags 0 (.DisableColor (.New 0 "svc")), by decide,
    (plain_line_exact ((newLogger 0 "svc").DisableColor.SetFlags 0) "svc" "starting" quietEnv
      noSinks (.SetFlags 0 (.DisableColor (.New 0 "svc"))) rfl rfl rfl).2.1 (by decide)⟩

/-- C6: after `SetPrefix(X)`, whatever the colour flag and whatever characters
`X` holds, `Prefix()` returns `X` and each of the five emitters carries `X`
unmodified, before its tag: between `ESC[1;36m` and `ESC[0m` when colour is
enabled, and at the very start when it is disabled. -/
theorem SetPrefix_literal (logger : Logger) (X : String) :
    (logger.SetPrefix X).Prefix = X
    ∧ (logger.enableColor = true → ColourPrefixes (logger.SetPrefix X) X)
    ∧ (logger.enableColor = false → PlainPrefixes (logger.SetPrefix X) X) :=
  ⟨(SetPrefix_fields logger X).2.2.2.2.1, SetPrefix_colour logger X, SetPrefix_plain logger X⟩

theorem SetPrefix_literal_witness :
    ((newLogger 0 "svc").SetPrefix "100%d\x1b[0m%s").Prefix = "100%d\x1b[0m%s"
    ∧ ((newLogger 0 "svc").SetPrefix "100%d\x1b[0m%s").infoLogger.prefix_
        = "\x1b[1;36m100%d\x1b[0m%s\x1b[0m\x1b[1;34m[INFO]  \x1b[0m"
    ∧ ((newLogger 0 "svc").DisableColor.SetPrefix "100%d\x1b[0m%s").infoLogger.prefix_
        = "100%d\x1b[0m%s[INFO]  " :=
  ⟨(SetPrefix_literal _ _).1, ((SetPrefix_literal (newLogger 0 "svc") _).2.1 rfl).2.1,
    ((SetPrefix_literal (newLogger 0 "svc").DisableColor _).2.2 (by decide)).2.1⟩

/-- Two loggers with the plain rendering of the same prefix have the same
emitter prefixes. -/
theorem PlainPrefixes.emitter_eq {l l' : Logger} {p : String} (h : PlainPrefixes l p)
    (h' : PlainPrefixes l' p) (sev : Severity) :
    (l.emitter sev).prefix_ = (l'.emitter sev).prefix_ := by
  obtain ⟨a1, a2, a3, a4, a5⟩ := h
  obtain ⟨b1, b2, b3, b4, b5⟩ := h'
  cases sev
  · exact a1.trans b1.symm
  · exact a2.trans b2.symm
  · exact a3.trans b3.symm
  · exact a4.trans b4.symm
  · exact a5.trans b5.symm

/-- C7: `EnableColor()` then `DisableColor()` leaves each emitter with the
plain prefix followed by the padded tag, which is the emitter prefix of a fresh
`New(sink, p)` logger after `DisableColor()`. -/
theorem enable_disable_plain (logger : Logger) (writer : Writer) :
    PlainPrefixes logger.EnableColor.DisableColor logger.prefix_
    ∧ ∀ sev, (logger.EnableColor.DisableColor.emitter sev).prefix_
        = ((newLogger writer logger.prefix_).DisableColor.emitter sev).prefix_ := by
  have h : PlainPrefixes logger.EnableColor.DisableColor logger.prefix_ := by
    have := DisableColor_plain logger.EnableColor
    rwa [show logger.EnableColor.prefix_ = logger.prefix_ from
      (SetPrefix_fields _ _).2.2.2.2.1] at this
  exact ⟨h, fun sev => h.emitter_eq (DisableColor_plain (newLogger writer logger.prefix_)) sev⟩

/-! ## Flags -/

theorem PrefixOrWriterCall.run_flags (logger : Logger) (c : PrefixOrWriterCall) :
    (c.run logger).flags = logger.flags := by
  cases c with
  | SetPrefix p => exact (SetPrefix_fields logger p).2.1
  | SetWriter w => rfl

/-- C8: after `SetFlags(X)` the accessor `Flags()` returns `X`, and it still
does after any sequence of `SetPrefix` and `SetWriter` calls. -/
theorem SetFlags_roundtrip (logger : Logger) (X : Int) (calls : List PrefixOrWriterCall) :
    (logger.SetFlags X).Flags = X
    ∧ (calls.foldl PrefixOrWriterCall.run (logger.SetFlags X)).Flags = X := by
  refine ⟨rfl, ?_⟩
  have key : ∀ (cs : List PrefixOrWriterCall) (l : Logger),
      (cs.foldl PrefixOrWriterCall.run l).flags = l.flags := by
    intro cs
    induction cs with
    | nil => intro l; rfl
    | cons c cs ih => intro l; rw [List.foldl_cons, ih, PrefixOrWriterCall.run_flags]
  exact key calls _

/-! ## Broadcasts -/

/-- C10: each broadcast function yields the state that the specification
describes: every registered logger ends in the state its single-instance
mutator gives it, in place, and the registry keeps its length. -/
theorem broadcast_refines (s : State) (writer : Writer) (p : String) (flags : Int)
    (level : Level) :
    SetWriterAll writer s = broadcastSpec (fun l => l.SetWriter writer) s
    ∧ SetPrefixAll p s = broadcastSpec (fun l => l.SetPrefix p) s
    ∧ SetFlagsAll flags s = broadcastSpec (fun l => l.SetFlags flags) s
    ∧ SetLevelAll level s = broadcastSpec (fun l => l.SetLevel level) s
    ∧ EnableColorAll s = broadcastSpec (fun l => l.EnableColor) s
    ∧ DisableColorAll s = broadcastSpec (fun l => l.DisableColor) s
    ∧ ∀ M : Logger → Logger, (broadcastSpec M s).loggers.length = s.loggers.length
        ∧ ∀ i : Nat, (broadcastSpec M s).loggers[i]? = (s.loggers[i]?).map M :=
  ⟨rangeLoggers_mutate _ s, rangeLoggers_mutate _ s, rangeLoggers_mutate _ s,
    rangeLoggers_mutate _ s, rangeLoggers_mutate _ s, rangeLoggers_mutate _ s,
    fun M => ⟨by simp [broadcastSpec], fun i => by simp [broadcastSpec]⟩⟩

/-- C9: after `SetLevelAll(L)` the registry has the loggers it had, each with
`Level() = L`, so each writes exactly on the calls of severity at least `L`:
with `L = Warn` on Warn, Error and Fatal and not on Debug and Info, and with
`L = Off` on no call at all. -/
theorem SetLevelAll_levels (s : State) (L : Level) :
    (SetLevelAll L s).loggers.length = s.loggers.length
    ∧ ∀ logger ∈ (SetLevelAll L s).loggers,
        logger.Level = L
        ∧ (∀ env c sinks, logger.call env c sinks ≠ sinks ↔ L ≤ c.sev.level)
        ∧ (L = WarnLevel → ∀ env c sinks, logger.call env c sinks ≠ sinks ↔
            (c.sev = .warn ∨ c.sev = .error ∨ c.sev = .fatal))
        ∧ (L = Off → ∀ env c sinks, logger.call env c sinks = sinks) := by
  have hs : SetLevelAll L s = broadcastSpec (fun l => l.SetLevel L) s :=
    rangeLoggers_mutate _ s
  rw [hs]
  refine ⟨by simp [broadcastSpec], ?_⟩
  intro logger hmem
  simp only [broadcastSpec, List.mem_map] at hmem
  obtain ⟨l0, _, rfl⟩ := hmem
  have hiff : ∀ env c sinks, (l0.SetLevel L).call env c sinks ≠ sinks ↔ L ≤ c.sev.level := by
    intro env c sinks
    constructor
    · intro h
      by_contra hn
      exact h (call_of_gt _ env c sinks (not_le.mp hn))
    · intro h
      obtain ⟨buf, hb⟩ := call_of_le (l0.SetLevel L) env c sinks h
      rw [hb]
      exact Sinks.Write_ne _ _ _
  refine ⟨rfl, hiff, ?_, ?_⟩
  · rintro rfl env c sinks
    rw [hiff]
    obtain ⟨sev, format, v⟩ := c
    cases sev <;> simp [Severity.level] <;> decide
  · rintro rfl env c sinks
    apply call_of_gt
    obtain ⟨sev, format, v⟩ := c
    cases sev <;> simp only [Logger.SetLevel, Severity.level, gt_iff_lt] <;> decide


/-! ## The registry -/

/-- Every call other than `New` acts on the registry entry by entry: there is
a function of the position and the entry that gives the new entry, whatever
the state. -/
theorem Op.run_pointwise (op : Op) (h : op.isNew = false) :
    ∃ f : Nat → Logger → Logger, ∀ (s : State) (k : Nat),
      (op.run s).loggers[k]? = (s.loggers[k]?).map (f k) := by
  have hm : ∀ (M : Logger → Logger) (i : Nat) (s : State) (k : Nat),
      (s.mutate i M).loggers[k]? = (s.loggers[k]?).map (fun l => if i = k then M l else l) := by
    intro M i s k
    rw [mutate_loggers, List.getElem?_modify]
    rfl
  have hb : ∀ (M : Logger → Logger) (s : State) (k : Nat),
      (rangeLoggers (fun i st => st.mutate i M) s).loggers[k]? = (s.loggers[k]?).map M := by
    intro M s k
    rw [rangeLoggers_mutate]
    simp [broadcastSpec]
  have hid : ∀ (s : State) (k : Nat), s.loggers[k]? = (s.loggers[k]?).map (fun l => l) := by
    intro s k
    simp
  cases op with
  | New writer p => simp [Op.isNew] at h
  | SetWriter i writer => exact ⟨_, hm _ i⟩
  | SetPrefix i p => exact ⟨_, hm _ i⟩
  | SetFlags i flags => exact ⟨_, hm _ i⟩
  | SetLevel i level => exact ⟨_, hm _ i⟩
  | EnableColor i => exact ⟨_, hm _ i⟩
  | DisableColor i => exact ⟨_, hm _ i⟩
  | SetWriterAll writer => exact ⟨fun _ => _, hb _⟩
  | SetPrefixAll p => exact ⟨fun _ => _, hb _⟩
  | SetFlagsAll flags => exact ⟨fun _ => _, hb _⟩
  | SetLevelAll level => exact ⟨fun _ => _, hb _⟩
  | EnableColorAll => exact ⟨fun _ => _, hb _⟩
  | DisableColorAll => exact ⟨fun _ => _, hb _⟩
  | accessor i => exact ⟨fun _ l => l, hid⟩
  | emit i env c =>
    refine ⟨fun _ l => l, fun s k => ?_⟩
    have : (s.emit i fun logger => logger.call env c).loggers = s.loggers := by
      unfold State.emit
      cases s.loggers[i]? <;> rfl
    show (s.emit i fun logger => logger.call env c).loggers[k]? = _
    rw [this]
    exact hid s k

/-- Lists with the same length of options at every position have the same
length. -/
theorem length_eq_of_getElem?_map {l l' : List Logger} {f : Nat → Logger → Logger}
    (h : ∀ k : Nat, l'[k]? = (l[k]?).map (f k)) : l'.length = l.length := by
  apply Nat.le_antisymm
  · by_contra hn
    have h1 := h l.length
    rw [List.getElem?_eq_none (Nat.le_refl _)] at h1
    have h2 : l.length < l'.length := Nat.lt_of_not_le hn
    rw [List.getElem?_eq_getElem h2] at h1
    simp at h1
  · by_contra hn
    have h1 := h l'.length
    rw [List.getElem?_eq_none (Nat.le_refl _)] at h1
    have h2 : l'.length < l.length := Nat.lt_of_not_le hn
    rw [List.getElem?_eq_getElem h2] at h1
    simp at h1

/-- C11: the registry is append-only. `New(sink, prefix)` returns the pointer
to a new last entry and leaves the earlier entries as they were, in the same
order; every other call (mutator, broadcast, accessor, emit) keeps the length
of the registry and acts on it position by position, so no entry is added,
removed or moved. -/
theorem registry_append_only :
    (∀ (writer : Writer) (p : String) (s : State),
      (Op.run (.New writer p) s).loggers = s.loggers ++ [newLogger writer p]
      ∧ (New writer p s).1 = s.loggers.length
      ∧ (Op.run (.New writer p) s).loggers.length = s.loggers.length + 1
      ∧ (Op.run (.New writer p) s).loggers.take s.loggers.length = s.loggers)
    ∧ (∀ op : Op, op.isNew = false →
        (∀ s : State, (op.run s).loggers.length = s.loggers.length)
        ∧ ∃ f : Nat → Logger → Logger, ∀ (s : State) (k : Nat),
            (op.run s).loggers[k]? = (s.loggers[k]?).map (f k)) := by
  refine ⟨fun writer p s => ⟨rfl, rfl, by simp [Op.run, New], by simp [Op.run, New]⟩, ?_⟩
  intro op h
  obtain ⟨f, hf⟩ := Op.run_pointwise op h
  exact ⟨fun s => length_eq_of_getElem?_map (hf s), f, hf⟩

/-- Every emit call writes on a logger whose level is `DebugLevel`. -/
theorem call_ne_of_level_debug (logger : Logger) (h : logger.level = DebugLevel)
    (env : log.Env) (c : EmitCall) (sinks : Sinks) : logger.call env c sinks ≠ sinks := by
  have hle : logger.level ≤ c.sev.level := by
    rw [h]
    exact Fin.zero_le _
  obtain ⟨buf, hb⟩ := call_of_le logger env c sinks hle
  rw [hb]
  exact Sinks.Write_ne _ _ _

/-- C12: the logger that `New(w, p)` returns has `Level() = Debug`, so every
emit call on it writes, and `IsColorEnabled() = true`, `Flags()` the default
flags (`LstdFlags`, the value 3), `Prefix() = p` and `Writer() = w`. -/
theorem New_defaults (w : Writer) (p : String) (s : State) :
    ∃ logger, (New w p s).2.loggers[(New w p s).1]? = some logger
      ∧ logger.Level = DebugLevel
      ∧ (∀ env c sinks, logger.call env c sinks ≠ sinks)
      ∧ logger.IsColorEnabled = true
      ∧ logger.Flags = defaultFlags ∧ defaultFlags = log.LstdFlags ∧ logger.Flags = 3
      ∧ logger.Prefix = p
      ∧ logger.Writer = w := by
  refine ⟨newLogger w p, by simp [New], rfl, ?_, rfl, rfl, rfl,
    (by decide : defaultFlags = (3 : Int)), rfl, rfl⟩
  exact call_ne_of_level_debug _ rfl

/-! ## The lockstep invariant on program states -/

/-- A property of loggers that a mutator preserves still holds on the whole
registry after a call of the mutator through a pointer. -/
theorem mutate_preserves (P : Logger → Prop) (M : Logger → Logger)
    (hM : ∀ l, P l → P (M l)) (s : State) (i : Nat) (hs : ∀ l ∈ s.loggers, P l) :
    ∀ l ∈ (s.mutate i M).loggers, P l := by
  intro l hl
  rw [mutate_loggers, List.mem_iff_getElem?] at hl
  obtain ⟨k, hk⟩ := hl
  rw [List.getElem?_modify] at hk
  cases h0 : s.loggers[k]? with
  | none => rw [h0] at hk; simp at hk
  | some l0 =>
    have hl0 : P l0 := hs l0 (List.mem_iff_getElem?.mpr ⟨k, h0⟩)
    rw [h0] at hk
    simp only [Option.map_eq_map, Option.map_some', Option.some.injEq] at hk
    rw [← hk]
    split
    · exact hM l0 hl0
    · exact hl0

/-- The same for the broadcast loop. -/
theorem rangeLoggers_preserves (P : Logger → Prop) (M : Logger → Logger)
    (hM : ∀ l, P l → P (M l)) (s : State) (hs : ∀ l ∈ s.loggers, P l) :
    ∀ l ∈ (rangeLoggers (fun i st => st.mutate i M) s).loggers, P l := by
  intro l hl
  rw [rangeLoggers_mutate] at hl
  simp only [broadcastSpec, List.mem_map] at hl
  obtain ⟨l0, h0, rfl⟩ := hl
  exact hM l0 (hs l0 h0)

/-- An emit call through a pointer leaves the registry as it is. -/
theorem emit_loggers (s : State) (i : Nat) (E : Logger → Sinks → Sinks) :
    (s.emit i E).loggers = s.loggers := by
  unfold State.emit
  cases s.loggers[i]? <;> rfl

/-- Every logger in the registry of a reachable program state is a reachable
logger. -/
theorem registry_reachable {s : State} (h : ReachableState s) :
    ∀ l ∈ s.loggers, Reachable l := by
  induction h with
  | start sinks => intro l hl; simp at hl
  | step op _ ih =>
    cases op with
    | New writer p =>
      intro l hl
      simp only [Op.run, New, List.mem_append, List.mem_singleton] at hl
      rcases hl with hl | rfl
      · exact ih l hl
      · exact .New writer p
    | SetWriter i writer => exact mutate_preserves _ _ (fun _ h => .SetWriter writer h) _ i ih
    | SetPrefix i p => exact mutate_preserves _ _ (fun _ h => .SetPrefix p h) _ i ih
    | SetFlags i flags => exact mutate_preserves _ _ (fun _ h => .SetFlags flags h) _ i ih
    | SetLevel i level => exact mutate_preserves _ _ (fun _ h => .SetLevel level h) _ i ih
    | EnableColor i => exact mutate_preserves _ _ (fun _ h => .EnableColor h) _ i ih
    | DisableColor i => exact mutate_preserves _ _ (fun _ h => .DisableColor h) _ i ih
    | SetWriterAll writer =>
      exact rangeLoggers_preserves _ _ (fun _ h => .SetWriter writer h) _ ih
    | SetPrefixAll p => exact rangeLoggers_preserves _ _ (fun _ h => .SetPrefix p h) _ ih
    | SetFlagsAll flags => exact rangeLoggers_preserves _ _ (fun _ h => .SetFlags flags h) _ ih
    | SetLevelAll level => exact rangeLoggers_preserves _ _ (fun _ h => .SetLevel level h) _ ih
    | EnableColorAll => exact rangeLoggers_preserves _ _ (fun _ h => .EnableColor h) _ ih
    | DisableColorAll => exact rangeLoggers_preserves _ _ (fun _ h => .DisableColor h) _ ih
    | accessor i => exact ih
    | emit i env c =>
      intro l hl
      exact ih l (by rwa [Op.run, emit_loggers] at hl)

/-- C13, as stated, fails for flags outside the `int32` range: after
`New(sink, "svc")` and `SetFlags(2147483648)` the logger holds the flags
2147483648 and each of its emitters holds -2147483648. -/
theorem emitter_flags_are_int32 :
    ReachableState (Op.run (.SetFlags 0 2147483648)
      (Op.run (.New 0 "svc") { loggers := [], sinks := noSinks }))
    ∧ (Op.run (.SetFlags 0 2147483648)
        (Op.run (.New 0 "svc") { loggers := [], sinks := noSinks })).loggers
      = [(newLogger 0 "svc").SetFlags 2147483648]
    ∧ ((newLogger 0 "svc").SetFlags 2147483648).flags = 2147483648
    ∧ (∀ sev, (((newLogger 0 "svc").SetFlags 2147483648).emitter sev).flag = -2147483648)
    ∧ ∀ sev, (((newLogger 0 "svc").SetFlags 2147483648).emitter sev).flag
        ≠ ((newLogger 0 "svc").SetFlags 2147483648).flags :=
  ⟨.step _ (.step _ (.start noSinks)), by decide, by decide,
    fun sev => by cases sev <;> decide, fun sev => by cases sev <;> decide⟩

/-- C13, amended: in every program state reached from an empty registry by
calls of `New`, the six mutators, their broadcasts, the accessors and the emit
methods, every registered logger is in lockstep: each of its five emitters has
the logger's writer, the logger's flags converted to `int32` (so the logger's
flags themselves whenever they lie in the `int32` range), and as prefix the
rendering of the logger's current prefix with the emitter's tag under the
logger's current colour flag (colourised when enabled, plain prefix and padded
tag when disabled). -/
theorem lockstep_invariant (s : State) (h : ReachableState s) (logger : Logger)
    (hm : logger ∈ s.loggers) :
    Lockstep logger
    ∧ (-2147483648 ≤ logger.flags ∧ logger.flags < 2147483648 →
        ∀ sev, (logger.emitter sev).flag = logger.flags) := by
  have hl := reachable_lockstep (registry_reachable h logger hm)
  refine ⟨hl, fun hr sev => ?_⟩
  rw [hl.2.1 sev]
  exact int32_of_range _ hr.1 hr.2

theorem lockstep_invariant_witness :
    Lockstep (((newLogger 0 "svc").DisableColor).SetFlags 0)
    ∧ ∀ sev, ((((newLogger 0 "svc").DisableColor).SetFlags 0).emitter sev).flag = 0 :=
  ⟨(lockstep_invariant
      (Op.run (.SetFlagsAll 0) (Op.run (.DisableColor 0)
        (Op.run (.New 0 "svc") { loggers := [], sinks := noSinks })))
      (.step _ (.step _ (.step _ (.start noSinks))))
      _ (by decide)).1,
   (lockstep_invariant
      (Op.run (.SetFlagsAll 0) (Op.run (.DisableColor 0)
        (Op.run (.New 0 "svc") { loggers := [], sinks := noSinks })))
      (.step _ (.step _ (.step _ (.start noSinks))))
      (((newLogger 0 "svc").DisableColor).SetFlags 0) (by decide)).2 (by decide)⟩

/-! ## What each mutator changes -/

/-- C14: each single-instance mutator changes only its own attribute.
`SetLevel` changes the level and nothing else; `SetWriter` changes the writer
of the logger and of the five emitters and keeps every emitter's prefix and
flags and the logger's prefix, flags, level and colour flag; `SetFlags` changes
the flags of the logger and of the five emitters (each emitter stores the
`int32` conversion of the new flags, which is the new flags themselves when
they lie in the `int32` range) and nothing else; `SetPrefix` keeps writer,
flags, level and colour flag, also on the emitters. -/
theorem mutators_frame (logger : Logger) (l : Level) (w : Writer) (f : Int) (p : String) :
    ((logger.SetLevel l).level = l
      ∧ (logger.SetLevel l).writer = logger.writer
      ∧ (logger.SetLevel l).prefix_ = logger.prefix_
      ∧ (logger.SetLevel l).prefixPattern = logger.prefixPattern
      ∧ (logger.SetLevel l).flags = logger.flags
      ∧ (logger.SetLevel l).enableColor = logger.enableColor
      ∧ ∀ sev, (logger.SetLevel l).emitter sev = logger.emitter sev)
    ∧ ((logger.SetWriter w).writer = w
      ∧ (∀ sev, ((logger.SetWriter w).emitter sev).out = w)
      ∧ (∀ sev, ((logger.SetWriter w).emitter sev).prefix_ = (logger.emitter sev).prefix_)
      ∧ (∀ sev, ((logger.SetWriter w).emitter sev).flag = (logger.emitter sev).flag)
      ∧ (logger.SetWriter w).prefix_ = logger.prefix_
      ∧ (logger.SetWriter w).prefixPattern = logger.prefixPattern
      ∧ (logger.SetWriter w).flags = logger.flags
      ∧ (logger.SetWriter w).level = logger.level
      ∧ (logger.SetWriter w).enableColor = logger.enableColor)
    ∧ ((logger.SetFlags f).flags = f
      ∧ (∀ sev, ((logger.SetFlags f).emitter sev).flag = log.int32 f)
      ∧ (-2147483648 ≤ f ∧ f < 2147483648 →
          ∀ sev, ((logger.SetFlags f).emitter sev).flag = f)
      ∧ (∀ sev, ((logger.SetFlags f).emitter sev).out = (logger.emitter sev).out)
      ∧ (∀ sev, ((logger.SetFlags f).emitter sev).prefix_ = (logger.emitter sev).prefix_)
      ∧ (logger.SetFlags f).writer = logger.writer
      ∧ (logger.SetFlags f).prefix_ = logger.prefix_
      ∧ (logger.SetFlags f).prefixPattern = logger.prefixPattern
      ∧ (logger.SetFlags f).level = logger.level
      ∧ (logger.SetFlags f).enableColor = logger.enableColor)
    ∧ ((logger.SetPrefix p).prefix_ = p
      ∧ (logger.SetPrefix p).writer = logger.writer
      ∧ (logger.SetPrefix p).flags = logger.flags
      ∧ (logger.SetPrefix p).level = logger.level
      ∧ (logger.SetPrefix p).enableColor = logger.enableColor
      ∧ (∀ sev, ((logger.SetPrefix p).emitter sev).out = (logger.emitter sev).out)
      ∧ (∀ sev, ((logger.SetPrefix p).emitter sev).flag = (logger.emitter sev).flag)) := by
  obtain ⟨hw, hf, hl, hc, hp, ho, hfl⟩ := SetPrefix_fields logger p
  refine ⟨⟨rfl, rfl, rfl, rfl, rfl, rfl, fun sev => by cases sev <;> rfl⟩,
    ⟨rfl, fun sev => by cases sev <;> rfl, fun sev => by cases sev <;> rfl,
      fun sev => by cases sev <;> rfl, rfl, rfl, rfl, rfl, rfl⟩,
    ⟨rfl, fun sev => by cases sev <;> rfl,
      fun hr sev => by
        have e := int32_of_range f hr.1 hr.2
        cases sev <;> exact e,
      fun sev => by cases sev <;> rfl,
      fun sev => by cases sev <;> rfl, rfl, rfl, rfl, rfl, rfl⟩,
    ⟨hp, hw, hf, hl, hc, ho, hfl⟩⟩

/-! ## The colour switches -/

/-- `SetPrefix` with the same prefix twice is `SetPrefix` once. -/
theorem SetPrefix_SetPrefix (logger : Logger) (p : String) :
    (logger.SetPrefix p).SetPrefix p = logger.SetPrefix p := by
  cases hc : logger.enableColor <;>
    simp [Logger.SetPrefix, hc, log.Logger.SetPrefix]

/-- C15: toggling colour never changes the stored prefix and is idempotent:
`Prefix()` is the same before and after `EnableColor()` or `DisableColor()`,
either of them applied twice gives the logger state that it gives applied
once, and writer, flags and level are unchanged by either. -/
theorem colour_toggle_idempotent (logger : Logger) :
    logger.EnableColor.Prefix = logger.Prefix
    ∧ logger.DisableColor.Prefix = logger.Prefix
    ∧ logger.EnableColor.EnableColor = logger.EnableColor
    ∧ logger.DisableColor.DisableColor = logger.DisableColor
    ∧ (logger.EnableColor.Writer = logger.Writer ∧ logger.EnableColor.Flags = logger.Flags
        ∧ logger.EnableColor.Level = logger.Level)
    ∧ (logger.DisableColor.Writer = logger.Writer ∧ logger.DisableColor.Flags = logger.Flags
        ∧ logger.DisableColor.Level = logger.Level) := by
  have he := SetPrefix_fields { logger with enableColor := true } logger.prefix_
  have hd := SetPrefix_fields { logger with enableColor := false } logger.prefix_
  refine ⟨he.2.2.2.2.1, hd.2.2.2.2.1, ?_, ?_, ⟨he.1, he.2.1, he.2.2.1⟩,
    ⟨hd.1, hd.2.1, hd.2.2.1⟩⟩
  · have h1 : logger.EnableColor.enableColor = true := he.2.2.2.1
    have h2 : logger.EnableColor.prefix_ = logger.prefix_ := he.2.2.2.2.1
    have h3 : ({ logger.EnableColor with enableColor := true } : Logger) = logger.EnableColor := by
      cases h : logger.EnableColor
      rw [h] at h1
      simp only at h1
      simp [h1]
    show ({ logger.EnableColor with enableColor := true } : Logger).SetPrefix
      logger.EnableColor.prefix_ = logger.EnableColor
    rw [h3, h2]
    exact SetPrefix_SetPrefix _ _
  · have h1 : logger.DisableColor.enableColor = false := hd.2.2.2.1
    have h2 : logger.DisableColor.prefix_ = logger.prefix_ := hd.2.2.2.2.1
    have h3 : ({ logger.DisableColor with enableColor := false } : Logger)
        = logger.DisableColor := by
      cases h : logger.DisableColor
      rw [h] at h1
      simp only at h1
      simp [h1]
    show ({ logger.DisableColor with enableColor := false } : Logger).SetPrefix
      logger.DisableColor.prefix_ = logger.DisableColor
    rw [h3, h2]
    exact SetPrefix_SetPrefix _ _

/-! ## The line that an emit call writes -/

/-- The header is the prefix and the ancillary text, in the order that the
`Lmsgprefix` flag decides. -/
theorem formatHeader_layout (l : log.Logger) (env : log.Env) :
    (Int.land l.flag log.Lmsgprefix = 0 → l.formatHeader env = l.prefix_ ++ l.ancillary env)
    ∧ (Int.land l.flag log.Lmsgprefix ≠ 0 → l.formatHeader env = l.ancillary env ++ l.prefix_) := by
  constructor
  · intro h
    simp [log.Logger.formatHeader, log.Logger.ancillary, h, String.append_assoc]
  · intro h
    simp [log.Logger.formatHeader, log.Logger.ancillary, h, String.append_assoc]

/-- What `Output` writes. -/
theorem Output_exact (l : log.Logger) (env : log.Env) (t : String) (sinks : Sinks) :
    l.Output env t sinks = sinks.Write l.out (l.formatHeader env ++ t ++ lineEnd t) := by
  unfold log.Logger.Output lineEnd
  by_cases h : t.data.getLast? = some '\n'
  · simp [h]
  · simp [h]

/-- An emit call that passes the level check writes one buffer through the
emitter of its severity: the header, the text, and a newline if the text does
not end in one. -/
theorem call_of_le_exact (logger : Logger) (env : log.Env) (c : EmitCall) (sinks : Sinks)
    (h : logger.level ≤ c.sev.level) :
    logger.call env c sinks = sinks.Write (logger.emitter c.sev).out
      ((logger.emitter c.sev).formatHeader env ++ c.text ++ lineEnd c.text) := by
  obtain ⟨sev, format, v⟩ := c
  cases sev <;> cases format <;>
    simp only [Logger.call, Severity.level, Logger.Debug, Logger.Debugf, Logger.Info,
      Logger.Infof, Logger.Warn, Logger.Warnf, Logger.Error, Logger.Errorf, Logger.Fatal,
      Logger.Fatalf, Logger.emitter, log.Logger.Println, log.Logger.Printf, gt_iff_lt,
      EmitCall.text] at h ⊢ <;>
    rw [if_neg (not_lt.mpr h)] <;>
    exact Output_exact _ _ _ _

/-- The text of `S(v...)` ends in a newline, so `Output` adds none. -/
theorem lineEnd_Sprintln (v : List Value) : lineEnd (fmt.Sprintln v) = "" := by
  simp [lineEnd, fmt.Sprintln]

/-- C16: `Fatal` and `Fatalf` do not end the logger's life. With minimum level
at most Fatal, the call writes one buffer through the fatal emitter (for
`Fatal` the header and the operands, ending in a newline), returns a state
with the same registry, and a following emit call that passes the level check
writes its own buffer after it. -/
theorem Fatal_returns (s : State) (i : Nat) (logger : Logger) (env env' : log.Env)
    (c0 c : EmitCall) (hi : s.loggers[i]? = some logger) (h0 : c0.sev = .fatal)
    (h : logger.level ≤ FatalLevel) (hc : logger.level ≤ c.sev.level) :
    s.emit i (fun l => l.call env c0)
        = { loggers := s.loggers,
            sinks := s.sinks.Write logger.fatalLogger.out
              (logger.fatalLogger.formatHeader env ++ c0.text ++ lineEnd c0.text) }
    ∧ (c0.format = none → c0.text = fmt.Sprintln c0.v ∧ lineEnd c0.text = "")
    ∧ (s.emit i (fun l => l.call env c0)).emit i (fun l => l.call env' c)
        = { loggers := s.loggers,
            sinks := (s.sinks.Write logger.fatalLogger.out
              (logger.fatalLogger.formatHeader env ++ c0.text ++ lineEnd c0.text)).Write
              (logger.emitter c.sev).out
              ((logger.emitter c.sev).formatHeader env' ++ c.text ++ lineEnd c.text) } := by
  have hf : logger.level ≤ c0.sev.level := by rw [h0]; exact h
  have e0 := call_of_le_exact logger env c0 s.sinks hf
  rw [h0] at e0
  have h1 : s.emit i (fun l => l.call env c0)
      = { loggers := s.loggers,
          sinks := s.sinks.Write logger.fatalLogger.out
            (logger.fatalLogger.formatHeader env ++ c0.text ++ lineEnd c0.text) } := by
    unfold State.emit
    rw [hi]
    simp only
    rw [e0]
    rfl
  refine ⟨h1, ?_, ?_⟩
  · intro hn
    have : c0.text = fmt.Sprintln c0.v := by simp [EmitCall.text, hn]
    exact ⟨this, by rw [this]; exact lineEnd_Sprintln _⟩
  · rw [h1]
    unfold State.emit
    simp only [hi]
    rw [call_of_le_exact logger env' c _ hc]

theorem Fatal_returns_witness :
    ((State.mk [(newLogger 0 "svc").DisableColor.SetFlags 0] noSinks).emit 0
        (fun l => l.call quietEnv { sev := .fatal, format := none, v := [.str "boom"] })).emit 0
        (fun l => l.call quietEnv { sev := .info, format := none, v := [.str "next"] })
      = { loggers := [(newLogger 0 "svc").DisableColor.SetFlags 0],
          sinks := (noSinks.Write 0 "svc[FATAL] boom\n").Write 0 "svc[INFO]  next\n" } :=
  (Fatal_returns (State.mk [(newLogger 0 "svc").DisableColor.SetFlags 0] noSinks) 0
    ((newLogger 0 "svc").DisableColor.SetFlags 0) quietEnv quietEnv
    { sev := .fatal, format := none, v := [.str "boom"] }
    { sev := .info, format := none, v := [.str "next"] } rfl rfl (by decide) (by decide)).2.2

/-- C17, as stated, fails for flags with the `Lmsgprefix` bit: with flags
`Ldate | Ltime | Lmsgprefix` (67) the date and time come first and the
emitter's prefix follows them, so the line does not begin with the prefix. -/
theorem msgprefix_line_not_prefix_first :
    ((newLogger 0 "svc").DisableColor.SetFlags 67).Flags = 67
    ∧ ((newLogger 0 "svc").DisableColor.SetFlags 67).infoLogger.prefix_ = "svc[INFO]  "
    ∧ ((newLogger 0 "svc").DisableColor.SetFlags 67).Info clockEnv [.str "x"] noSinks 0
        = ["2009/01/23 01:23:23 svc[INFO]  x\n"]
    ∧ ¬ "svc[INFO]  ".data <+: "2009/01/23 01:23:23 svc[INFO]  x\n".data := by
  decide

/-- C17, amended: on a logger that the package can produce, an emit call that
passes the level check writes one buffer to the logger's writer. When the
`Lmsgprefix` bit of the flags is clear, the buffer is the emitter's prefix,
then the ancillary-flags rendering, then the message and a newline; when the
bit is set, the ancillary-flags rendering comes first and the emitter's prefix
stands directly before the message. -/
theorem line_layout (logger : Logger) (env : log.Env) (c : EmitCall) (sinks : Sinks)
    (hr : Reachable logger) (h : logger.level ≤ c.sev.level) :
    (Int.land logger.flags log.Lmsgprefix = 0 →
      logger.call env c sinks = sinks.Write logger.writer
        ((logger.emitter c.sev).prefix_ ++ (logger.emitter c.sev).ancillary env
          ++ c.text ++ lineEnd c.text))
    ∧ (Int.land logger.flags log.Lmsgprefix ≠ 0 →
      logger.call env c sinks = sinks.Write logger.writer
        ((logger.emitter c.sev).ancillary env ++ (logger.emitter c.sev).prefix_
          ++ c.text ++ lineEnd c.text)) := by
  obtain ⟨ho, hfl, _, _⟩ := reachable_lockstep hr
  have e := call_of_le_exact logger env c sinks h
  rw [ho c.sev] at e
  obtain ⟨h1, h2⟩ := formatHeader_layout (logger.emitter c.sev) env
  rw [hfl c.sev, int32_land_Lmsgprefix] at h1
  rw [hfl c.sev, ne_eq, int32_land_Lmsgprefix] at h2
  constructor
  · intro hb
    rw [e, h1 hb]
  · intro hb
    rw [e, h2 hb]

theorem line_layout_witness :
    ((newLogger 0 "svc").DisableColor).Info clockEnv [.str "x"] noSinks
        = noSinks.Write 0 "svc[INFO]  2009/01/23 01:23:23 x\n"
    ∧ ((newLogger 0 "svc").DisableColor.SetFlags 67).Info clockEnv [.str "x"] noSinks
        = noSinks.Write 0 "2009/01/23 01:23:23 svc[INFO]  x\n" :=
  ⟨(line_layout ((newLogger 0 "svc").DisableColor) clockEnv
      { sev := .info, format := none, v := [.str "x"] } noSinks
      (.DisableColor (.New 0 "svc")) (by decide)).1 (by decide),
   (line_layout ((newLogger 0 "svc").DisableColor.SetFlags 67) clockEnv
      { sev := .info, format := none, v := [.str "x"] } noSinks
      (.SetFlags 67 (.DisableColor (.New 0 "svc"))) (by decide)).2 (by decide)⟩

/-! ## `New` and `SetPrefix` -/

/-- C18: `New(w, q)` followed by `SetPrefix(p)` gives the logger that
`New(w, p)` gives: the same prefix, prefixPattern, flags, level, colour flag
and five emitter prefixes (and the same writer, so the same logger state). -/
theorem New_SetPrefix_agree (w : Writer) (p q : String) :
    (newLogger w q).SetPrefix p = newLogger w p
    ∧ ((newLogger w q).SetPrefix p).prefix_ = (newLogger w p).prefix_
    ∧ ((newLogger w q).SetPrefix p).prefixPattern = (newLogger w p).prefixPattern
    ∧ ((newLogger w q).SetPrefix p).flags = (newLogger w p).flags
    ∧ ((newLogger w q).SetPrefix p).level = (newLogger w p).level
    ∧ ((newLogger w q).SetPrefix p).enableColor = (newLogger w p).enableColor
    ∧ ∀ sev, (((newLogger w q).SetPrefix p).emitter sev).prefix_
        = ((newLogger w p).emitter sev).prefix_ := by
  have h : (newLogger w q).SetPrefix p = newLogger w p := by
    simp [newLogger, Logger.SetPrefix, log.New, log.Logger.SetPrefix]
  exact ⟨h, by rw [h], by rw [h], by rw [h], by rw [h], by rw [h], fun sev => by rw [h]⟩

/-! ## Levels outside the named range -/

/-- C19: for every level `l` with ordinal at least 5 (`Off` and the unnamed
values up to 255), after `SetLevel(l)` no call of any of the ten emit methods
writes, and `Level()` returns `l`. -/
theorem level_above_fatal_is_off (logger : Logger) (l : Level) (env : log.Env) (c : EmitCall)
    (sinks : Sinks) (h : Off ≤ l) :
    (logger.SetLevel l).call env c sinks = sinks ∧ (logger.SetLevel l).Level = l := by
  refine ⟨call_of_gt _ env c sinks ?_, rfl⟩
  have hs : ∀ sev : Severity, sev.level < Off := by
    intro sev
    cases sev <;> decide
  exact lt_of_lt_of_le (hs c.sev) h

theorem level_above_fatal_is_off_witness :
    Off ≤ (255 : Level)
    ∧ ((newLogger 0 "svc").SetLevel 255).call quietEnv
        { sev := .fatal, format := some "%s", v := [.str "x"] } noSinks = noSinks
    ∧ ((newLogger 0 "svc").SetLevel 255).Level = 255 :=
  ⟨by decide, level_above_fatal_is_off _ _ _ _ _ (by decide)⟩

/-! ## The cached prefix pattern -/

/-- C20, as stated, fails with colour disabled: after `SetPrefix("api")` on a
logger with colour disabled, `prefixPattern` is the colourised rendering, not
the plain string `"api"`. -/
theorem prefixPattern_colourised_when_disabled :
    ((newLogger 0 "svc").DisableColor.SetPrefix "api").enableColor = false
    ∧ ((newLogger 0 "svc").DisableColor.SetPrefix "api").prefixPattern = "\x1b[1;36mapi\x1b[0m"
    ∧ ((newLogger 0 "svc").DisableColor.SetPrefix "api").prefixPattern ≠ "api"
    ∧ (newLogger 0 "svc").DisableColor.prefixPattern = "\x1b[1;36msvc\x1b[0m" := by
  decide

/-- C20, amended: `SetPrefix(p)` recomputes the cached `prefixPattern` as the
colourised rendering of `p` whatever the colour setting, and so does a colour
toggle for the current prefix; with colour enabled the emitters carry this
pattern, and with colour disabled they carry the plain string `p`, taken from
the stored prefix and not from `prefixPattern`. -/
theorem prefixPattern_always_colourised (logger : Logger) (p : String) :
    (logger.SetPrefix p).prefixPattern = "\x1b[1;36m" ++ p ++ "\x1b[0m"
    ∧ logger.EnableColor.prefixPattern = "\x1b[1;36m" ++ logger.prefix_ ++ "\x1b[0m"
    ∧ logger.DisableColor.prefixPattern = "\x1b[1;36m" ++ logger.prefix_ ++ "\x1b[0m"
    ∧ (logger.enableColor = true → ColourPrefixes (logger.SetPrefix p) p)
    ∧ (logger.enableColor = false → PlainPrefixes (logger.SetPrefix p) p) := by
  have h : ∀ (l : Logger) (q : String),
      (l.SetPrefix q).prefixPattern = "\x1b[1;36m" ++ q ++ "\x1b[0m" := by
    intro l q
    rw [← Sprintf_defaultPrefixPattern]
    cases hc : l.enableColor <;> simp [Logger.SetPrefix, hc]
  exact ⟨h _ _, h _ _, h _ _, SetPrefix_colour logger p, SetPrefix_plain logger p⟩

end Clog
